import Mathlib

/-
Verification of the Underworld-Badlands linkage engine against its design
specification.  The repository ships the RisingBall example notebook
(src/examples/rising_ball/RisingBall.ipynb), which configures and drives the
LinkageModel; the linkage engine itself (TimeSynchronizer, MaterialClassifier,
DomainMapper, CheckpointScheduler, run loop) is described by the specification
and modelled here from the specification's words.  Times and coordinates are
embedded as rationals, material tags as integers.
-/

/- ----------------------------------------------------------------- -/
/- Material tags and classifier configuration, from the RisingBall notebook -/
/- ----------------------------------------------------------------- -/

/-- Material type constant from the notebook: airIndex = 0. -/
def airIndex : ℤ := 0

/-- Material type constant from the notebook: heavyIndex = 1. -/
def heavyIndex : ℤ := 1

/-- Material type constant from the notebook: lightIndex = 2. -/
def lightIndex : ℤ := 2

/-- Material type constant from the notebook: sedimentIndex = 3. -/
def sedimentIndex : ℤ := 3

/-- Material type constant from the notebook: erodedIndex = 4. -/
def erodedIndex : ℤ := 4

/-- Notebook configuration: linkage.air_material_indices = [airIndex, erodedIndex]. -/
def air_material_indices : List ℤ := [airIndex, erodedIndex]

/-- Notebook configuration:
linkage.sediment_material_indices = [heavyIndex, lightIndex, sedimentIndex]. -/
def sediment_material_indices : List ℤ := [heavyIndex, lightIndex, sedimentIndex]

/-- Notebook configuration: linkage.deposited_material_index = sedimentIndex. -/
def deposited_material_index : ℤ := sedimentIndex

/-- Notebook configuration: linkage.eroded_material_index = erodedIndex. -/
def eroded_material_index : ℤ := erodedIndex

/-- The set of material tags registered in the RisingBall example:
all five indices declared in the notebook's parameter cell. -/
def registered_tags : List ℤ :=
  [airIndex, heavyIndex, lightIndex, sedimentIndex, erodedIndex]

/-- Modelled from the spec: the MaterialClassifier, whose implementation is not
in the repository sources (only its configuration in the notebook is).  Pure
function classify(old_tag, elevation_delta, is_within_domain) -> new_tag.
If elevation_delta > 0 and old_tag is AirLike the new tag is the deposited
target tag; if elevation_delta < 0 and old_tag is SedimentLike the new tag is
the eroded target tag; otherwise the tag is unchanged.  Instantiated with the
AirLike / SedimentLike classes and write targets registered by the notebook. -/
def classify (old_tag : ℤ) (elevation_delta : ℚ) ( is_within_domain : Bool) : ℤ :=
  if 0 < elevation_delta ∧ old_tag ∈ air_material_indices then
    deposited_material_index
  else if elevation_delta < 0 ∧ old_tag ∈ sediment_material_indices then
    eroded_material_index
  else
    old_tag

/- ----------------------------------------------------------------- -/
/- Initial swarm tagging, from the notebook's sphere-definition loop -/
/- ----------------------------------------------------------------- -/

/-- Notebook parameter: SPHERE_CENTRE = (50e3, 50e3, -18e3). -/
def SPHERE_CENTRE : ℚ × ℚ × ℚ := (50000, 50000, -18000)

/-- Notebook parameter: SPHERE_RADIUS = 12e3. -/
def SPHERE_RADIUS : ℚ := 12000

/-- Notebook parameter: INITIAL_AIR_ELEVATION = 0.0. -/
def INITIAL_AIR_ELEVATION : ℚ := 0

/-- The sphere membership test of the notebook's tagging loop: the squared
norm of coord - SPHERE_CENTRE is below SPHERE_RADIUS squared. -/
def inSphere (x y z : ℚ) : Prop :=
  (x - SPHERE_CENTRE.1) ^ 2 + (y - SPHERE_CENTRE.2.1) ^ 2 +
    (z - SPHERE_CENTRE.2.2) ^ 2 < SPHERE_RADIUS ^ 2

instance (x y z : ℚ) : Decidable (inSphere x y z) := by
  unfold inSphere
  infer_instance

/-- The notebook's initial material assignment for a particle at (x, y, z):
lightIndex inside the sphere, else airIndex above INITIAL_AIR_ELEVATION,
else heavyIndex. -/
def initialMaterial (x y z : ℚ) : ℤ :=
  if inSphere x y z then lightIndex
  else if INITIAL_AIR_ELEVATION < z then airIndex
  else heavyIndex

/- ----------------------------------------------------------------- -/
/- DomainMapper: DEM generation and bilinear sampling -/
/- ----------------------------------------------------------------- -/

/-- Modelled from the spec: the ElevationGrid (DEM) of the DomainMapper, whose
implementation is not in the repository sources.  A regular 2D lattice of
scalar elevations with an origin, extents and a resolution; cell contents are
read through the data field. -/
structure ElevationGrid where
  minX : ℚ
  minY : ℚ
  maxX : ℚ
  maxY : ℚ
  rows : ℕ
  cols : ℕ
  data : ℕ → ℕ → ℚ

/-- Modelled from the spec: generate_flat_dem, whose implementation is not in
the repository sources (the notebook only calls it).  Given domain bounds, a
resolution (row count, column count) and a constant elevation, produces a
fully-populated ElevationGrid with that elevation at every cell. -/
def generate_flat_dem (minCoord maxCoord : ℚ × ℚ × ℚ) (resolution : ℕ × ℕ)
    (elevation : ℚ) : ElevationGrid :=
  { minX := minCoord.1
    minY := minCoord.2.1
    maxX := maxCoord.1
    maxY := maxCoord.2.1
    rows := resolution.1
    cols := resolution.2
    data := fun _ _ => elevation }

/-- Modelled from the spec: DomainMapper.elevation_at, whose implementation is
not in the repository sources.  Bilinear interpolation over the four DEM cells
enclosing (x, y), after an affine transform of (x, y) into grid coordinates. -/
def elevation_at (g : ElevationGrid) (x y : ℚ) : ℚ :=
  let dx := (g.maxX - g.minX) / ((g.cols : ℚ) - 1)
  let dy := (g.maxY - g.minY) / ((g.rows : ℚ) - 1)
  let gx := (x - g.minX) / dx
  let gy := (y - g.minY) / dy
  let i : ℤ := ⌊gx⌋
  let j : ℤ := ⌊gy⌋
  let fx := gx - (i : ℚ)
  let fy := gy - (j : ℚ)
  let v00 := g.data i.toNat j.toNat
  let v10 := g.data (i.toNat + 1) j.toNat
  let v01 := g.data i.toNat (j.toNat + 1)
  let v11 := g.data (i.toNat + 1) (j.toNat + 1)
  (1 - fx) * (1 - fy) * v00 + fx * (1 - fy) * v10 +
    (1 - fx) * fy * v01 + fx * fy * v11

/- ----------------------------------------------------------------- -/
/- TimeSynchronizer and CheckpointScheduler -/
/- ----------------------------------------------------------------- -/

/-- The notebook's update_function: one mechanics update.  It takes the cap
max_seconds imposed by the linkage and the advector's reported maximum stable
step, advances by their minimum and returns the step actually used. -/
def update_function (max_seconds dtmax_seconds : ℚ) : ℚ :=
  min max_seconds dtmax_seconds

/-- Modelled from the spec: the TimeSynchronizer's step-size policy, whose
implementation is not in the repository sources.  The synchronizer caps the
caller-requested maximum at the time remaining to the next sync point and
hands that cap to the mechanics update, so the step actually used is the
minimum of all three bounds. -/
def dt_used (max_seconds mech_max sync_remaining : ℚ) : ℚ :=
  update_function (min max_seconds sync_remaining) mech_max

/-- CouplingState carried through one run: accumulated simulated time, the
checkpoint sequence number already fired, and the log of checkpoint callback
invocations (sequence number, elapsed time at the call). -/
structure SyncState where
  elapsed : ℚ
  seq : ℕ
  log : List (ℕ × ℚ)
deriving DecidableEq, Repr

/-- The coupling state at the start of a run: no time simulated, no
checkpoint fired. -/
def initState : SyncState := ⟨0, 0, []⟩

/-- Modelled from the spec: the CheckpointScheduler's firing rule, whose
implementation is not in the repository sources.  When accumulated time
reaches newElapsed and checkpoints up to sequence number seq have already
fired, the callback fires once per interval boundary now crossed, in
increasing sequence order, each invocation receiving the current elapsed
time. -/
def checkpointFires (interval : ℚ) (seq : ℕ) (newElapsed : ℚ) : List (ℕ × ℚ) :=
  let k : ℕ := (⌊newElapsed / interval⌋ - (seq : ℤ)).toNat
  (List.range k).map (fun j => (seq + j + 1, newElapsed))

/-- Modelled from the spec: one CheckpointScheduler update.  Advance the
accumulated time by the duration of one coupling step and fire the callback
once per boundary crossed. -/
def schedulerAdvance (interval d : ℚ) (s : SyncState) : SyncState :=
  let t2 := s.elapsed + d
  let fires := checkpointFires interval s.seq t2
  { elapsed := t2, seq := s.seq + fires.length, log := s.log ++ fires }

/-- Modelled from the spec: the CheckpointScheduler driven over an arbitrary
sequence of coupling-step durations. -/
def scheduler_run (interval : ℚ) : List ℚ → SyncState → SyncState
  | [], s => s
  | d :: ds, s => scheduler_run interval ds (schedulerAdvance interval d s)

/-- Modelled from the spec: one coupled step of the TimeSynchronizer.  The
caller-requested maximum is the remaining requested duration; the step used is
dt_used of that maximum, the mechanics-reported maximum stable step m, and the
time remaining to the next sync point; the CheckpointScheduler then runs on
the step actually used. -/
def stepOnce (interval total m : ℚ) (s : SyncState) : SyncState :=
  let syncRemaining := ((s.seq : ℚ) + 1) * interval - s.elapsed
  schedulerAdvance interval (dt_used (total - s.elapsed) m syncRemaining) s

/-- SolverStepError: the fatal error raised when the mechanics solver reports
a non-positive maximum stable step; it carries the simulated time
accumulated so far. -/
structure SolverStepError where
  elapsedAtFailure : ℚ
deriving DecidableEq, Repr

/-- Modelled from the spec: LinkageModel.run_for, whose implementation is not
in the repository sources (the notebook only calls run_for_years).  Driven by
the list of maximum stable steps the mechanics solver reports at each call, it
loops until the requested total duration has been simulated; a non-positive
reported maximum is fatal and propagates a SolverStepError preserving the
simulated time so far. -/
def run_for (interval total : ℚ) : List ℚ → SyncState → Except SolverStepError SyncState
  | [], s => .ok s
  | m :: ms, s =>
    if total ≤ s.elapsed then .ok s
    else if m ≤ 0 then .error ⟨s.elapsed⟩
    else run_for interval total ms (stepOnce interval total m s)

/- ----------------------------------------------------------------- -/
/- Claim theorems -/
/- ----------------------------------------------------------------- -/

/-- Claim C1: on every call, the step actually used never exceeds the
caller-requested maximum, the mechanics solver's reported maximum stable
step, or the time remaining to the next sync point — the synchronizer only
ever shortens a step; and in the scenario where the mechanics maximum is
50000 and the next sync point is 10000 away (the caller maximum being at
least 10000), the step used is exactly 10000. -/
theorem C1_step_bound (a m s : ℚ) :
    dt_used a m s ≤ a ∧ dt_used a m s ≤ m ∧ dt_used a m s ≤ s ∧
    ((10000 : ℚ) ≤ a → dt_used a 50000 10000 = 10000) := by
  refine ⟨le_trans (min_le_left _ _) (min_le_left _ _), min_le_right _ _,
    le_trans (min_le_left _ _) (min_le_right _ _), fun h => ?_⟩
  unfold dt_used update_function
  rw [min_eq_right h]
  norm_num

theorem C1_step_bound_witness :
    dt_used 3 50000 10000 ≤ 3 ∧ dt_used 20000 50000 10000 = 10000 :=
  ⟨(C1_step_bound 3 50000 10000).1, (C1_step_bound 20000 50000 10000).2.2.2 (by norm_num)⟩

/-- Claim C2: for every registered tag, classify returns the deposited target
tag when the elevation delta is positive and the old tag is AirLike, the
eroded target tag when the delta is negative and the old tag is SedimentLike,
and the old tag unchanged in every other case. -/
theorem C2_classifier_rules (t : ℤ) (d : ℚ) (b : Bool) (ht : t ∈ registered_tags) :
    (0 < d → t ∈ air_material_indices → classify t d b = deposited_material_index) ∧
    (d < 0 → t ∈ sediment_material_indices → classify t d b = eroded_material_index) ∧
    (¬ (0 < d ∧ t ∈ air_material_indices) →
      ¬ (d < 0 ∧ t ∈ sediment_material_indices) → classify t d b = t) := by
  unfold classify
  refine ⟨fun h1 h2 => ?_, fun h1 h2 => ?_, fun h1 h2 => ?_⟩
  · rw [if_pos ⟨h1, h2⟩]
  · rw [if_neg (fun hc => absurd h1 (not_lt.mpr hc.1.le)), if_pos ⟨h1, h2⟩]
  · rw [if_neg h1, if_neg h2]

theorem C2_classifier_rules_witness : classify airIndex 1 true = deposited_material_index :=
  (C2_classifier_rules airIndex 1 true (by decide)).1 (by norm_num) (by decide)

/-- Claim C6: classifying with zero elevation delta leaves every tag
unchanged, hence classifying twice with zero delta agrees with classifying
once. -/
theorem C6_classifier_idempotent (t : ℤ) :
    classify (classify t 0 true) 0 true = classify t 0 true ∧
    classify t 0 true = t := by
  have h : ∀ u : ℤ, classify u 0 true = u := by
    intro u
    simp [classify]
  exact ⟨by rw [h, h], h t⟩

theorem C6_classifier_idempotent_witness :
    classify (classify sedimentIndex 0 true) 0 true = classify sedimentIndex 0 true ∧
    classify sedimentIndex 0 true = sedimentIndex :=
  C6_classifier_idempotent sedimentIndex

/-- Claim C8: in the example configuration the AirLike and SedimentLike
classes are disjoint and together are exactly the registered tag set, the
deposited target tag is SedimentLike and the eroded target tag is AirLike;
consequently a freshly deposited particle is erodible (negative delta sends
it to the eroded tag) and a freshly eroded particle is re-depositable
(positive delta sends it to the deposited tag). -/
theorem C8_partition :
    air_material_indices.Disjoint sediment_material_indices ∧
    (air_material_indices ++ sediment_material_indices).Perm registered_tags ∧
    deposited_material_index ∈ sediment_material_indices ∧
    eroded_material_index ∈ air_material_indices ∧
    classify deposited_material_index (-1) true = eroded_material_index ∧
    classify eroded_material_index 1 true = deposited_material_index := by
  refine ⟨?_, by decide, by decide, by decide, by decide, by decide⟩
  intro a ha hb
  simp [air_material_indices, airIndex, erodedIndex] at ha
  simp [sediment_material_indices, heavyIndex, lightIndex, sedimentIndex] at hb
  omega

/-- Claim C9: the notebook's initial tagging gives every particle exactly one
of lightIndex, airIndex, heavyIndex: lightIndex inside the sphere (the sphere
test taking precedence over the elevation test), otherwise airIndex strictly
above INITIAL_AIR_ELEVATION, otherwise heavyIndex. -/
theorem C9_initial_tagging (x y z : ℚ) :
    (inSphere x y z → initialMaterial x y z = lightIndex) ∧
    (¬ inSphere x y z → INITIAL_AIR_ELEVATION < z → initialMaterial x y z = airIndex) ∧
    (¬ inSphere x y z → ¬ INITIAL_AIR_ELEVATION < z → initialMaterial x y z = heavyIndex) ∧
    (inSphere x y z → INITIAL_AIR_ELEVATION < z → initialMaterial x y z = lightIndex) ∧
    (initialMaterial x y z = lightIndex ∨ initialMaterial x y z = airIndex ∨
      initialMaterial x y z = heavyIndex) := by
  unfold initialMaterial
  by_cases hs : inSphere x y z <;> by_cases hz : INITIAL_AIR_ELEVATION < z <;>
    simp [hs, hz]

theorem C9_initial_tagging_witness :
    initialMaterial 50000 50000 (-18000) = lightIndex :=
  (C9_initial_tagging 50000 50000 (-18000)).1
    (by norm_num [inSphere, SPHERE_CENTRE, SPHERE_RADIUS])

/-- Claim C10: every point strictly inside the sphere lies strictly below
INITIAL_AIR_ELEVATION, so no particle satisfies both the sphere test and the
above-air test, and the tagging loop's branch ordering never masks an air
assignment: any particle strictly above INITIAL_AIR_ELEVATION is tagged
airIndex. -/
theorem C10_sphere_below_air (x y z : ℚ) :
    (inSphere x y z → z < INITIAL_AIR_ELEVATION) ∧
    ¬ (inSphere x y z ∧ INITIAL_AIR_ELEVATION < z) ∧
    (INITIAL_AIR_ELEVATION < z → initialMaterial x y z = airIndex) := by
  have key : inSphere x y z → z < INITIAL_AIR_ELEVATION := by
    intro h
    have h2 : (x - 50000) ^ 2 + (y - 50000) ^ 2 + (z + 18000) ^ 2 < 12000 ^ 2 := by
      simpa [inSphere, SPHERE_CENTRE, SPHERE_RADIUS, sub_neg_eq_add] using h
    have hz : z < 0 := by
      nlinarith [sq_nonneg (x - 50000), sq_nonneg (y - 50000), sq_nonneg z]
    simpa [INITIAL_AIR_ELEVATION] using hz
  refine ⟨key, fun hc => absurd (key hc.1) (not_lt.mpr hc.2.le), fun hz => ?_⟩
  unfold initialMaterial
  rw [if_neg (fun hs => absurd (key hs) (not_lt.mpr hz.le)), if_pos hz]

theorem C10_sphere_below_air_witness :
    ((-18000 : ℚ) < INITIAL_AIR_ELEVATION) ∧ initialMaterial 1 2 3 = airIndex :=
  ⟨(C10_sphere_below_air 50000 50000 (-18000)).1
    (by norm_num [inSphere, SPHERE_CENTRE, SPHERE_RADIUS]),
   (C10_sphere_below_air 1 2 3).2.2 (by norm_num [INITIAL_AIR_ELEVATION])⟩

/-- Claim C3: sampling a flat DEM generated at constant elevation E returns
exactly E at every in-bounds coordinate, for every choice of bounds,
resolution and E: bilinear interpolation of a constant field is that
constant. -/
theorem C3_flat_dem_round_trip (minCoord maxCoord : ℚ × ℚ × ℚ)
    (resolution : ℕ × ℕ) (E x y : ℚ)
    (hx1 : minCoord.1 ≤ x) (hx2 : x ≤ maxCoord.1)
    (hy1 : minCoord.2.1 ≤ y) (hy2 : y ≤ maxCoord.2.1) :
    elevation_at (generate_flat_dem minCoord maxCoord resolution E) x y = E := by
  simp only [elevation_at, generate_flat_dem]
  ring

theorem C3_flat_dem_round_trip_witness :
    elevation_at (generate_flat_dem (0, 0, -80000) (100000, 100000, 20000) (180, 180) 0)
      50000 50000 = 0 :=
  C3_flat_dem_round_trip (0, 0, -80000) (100000, 100000, 20000) (180, 180) 0 50000 50000
    (by norm_num) (by norm_num) (by norm_num) (by norm_num)

/- ----------------------------------------------------------------- -/
/- Run-loop lemmas -/
/- ----------------------------------------------------------------- -/

/-- Helper: a run that succeeded on a prefix of the mechanics reports without
reaching the requested duration continues on appended reports from the state
the prefix reached. -/
theorem run_for_ok_append (interval total : ℚ) (ms2 : List ℚ) :
    ∀ (ms1 : List ℚ) (s0 s : SyncState),
      run_for interval total ms1 s0 = .ok s → s.elapsed < total →
      run_for interval total (ms1 ++ ms2) s0 = run_for interval total ms2 s
  | [], s0, s, hok, _ => by
    obtain rfl : s0 = s := by simpa [run_for] using hok
    rw [List.nil_append]
  | a :: tl, s0, s, hok, hlt => by
    rw [List.cons_append]
    simp only [run_for] at hok ⊢
    by_cases h1 : total ≤ s0.elapsed
    · rw [if_pos h1] at hok
      obtain rfl : s0 = s := by simpa using hok
      exact absurd h1 (not_le.mpr hlt)
    · rw [if_neg h1] at hok ⊢
      by_cases h2 : a ≤ 0
      · rw [if_pos h2] at hok
        exact absurd hok (by simp)
      · rw [if_neg h2] at hok ⊢
        exact run_for_ok_append interval total ms2 tl _ s hok hlt

/-- Claim C7: if, after some successfully completed prefix of mechanics calls
that has not yet reached the requested duration, the mechanics solver reports
a non-positive maximum stable step, the run fails with SolverStepError
carrying the simulated time accumulated so far; the remaining reports are
never consumed (no retry). -/
theorem C7_solver_step_error (interval total : ℚ) (ms1 ms2 : List ℚ) (m : ℚ)
    (s0 s : SyncState) (hok : run_for interval total ms1 s0 = .ok s)
    (hlt : s.elapsed < total) (hm : m ≤ 0) :
    run_for interval total (ms1 ++ m :: ms2) s0 = .error ⟨s.elapsed⟩ := by
  rw [run_for_ok_append interval total (m :: ms2) ms1 s0 s hok hlt]
  simp only [run_for]
  rw [if_neg (not_le.mpr hlt), if_pos hm]

theorem C7_solver_step_error_witness :
    run_for 10 100 ([(5 : ℚ)] ++ (0 : ℚ) :: [7]) initState = .error ⟨5⟩ :=
  C7_solver_step_error 10 100 [5] [7] 0 initState ⟨5, 0, []⟩
    (by with_unfolding_all rfl) (by norm_num) (by norm_num)

/-- The checkpoint log produced after the first n interval boundaries have
been hit exactly: sequence numbers 1..n, elapsed times the corresponding
multiples of the interval. -/
def checkpointLog (interval : ℚ) (n : ℕ) : List (ℕ × ℚ) :=
  (List.range n).map (fun k => (k + 1, ((k : ℚ) + 1) * interval))

/-- Invariant of the coupled run loop: the elapsed time sits between the last
checkpoint boundary fired and the next one, never past the requested total,
and the log is exactly the boundary log so far. -/
def CapInv (interval total : ℚ) (s : SyncState) : Prop :=
  (s.seq : ℚ) * interval ≤ s.elapsed ∧
  s.elapsed < ((s.seq : ℚ) + 1) * interval ∧
  s.elapsed ≤ total ∧
  s.log = checkpointLog interval s.seq

/-- Helper: dt_used never exceeds the caller maximum. -/
theorem dt_used_le_caller (a m c : ℚ) : dt_used a m c ≤ a :=
  le_trans (min_le_left _ _) (min_le_left _ _)

/-- Helper: dt_used never exceeds the mechanics-reported maximum. -/
theorem dt_used_le_mech (a m c : ℚ) : dt_used a m c ≤ m :=
  min_le_right _ _

/-- Helper: dt_used never exceeds the time to the next sync point. -/
theorem dt_used_le_sync (a m c : ℚ) : dt_used a m c ≤ c :=
  le_trans (min_le_left _ _) (min_le_right _ _)

/-- Helper: dt_used is positive when all three bounds are. -/
theorem dt_used_pos (a m c : ℚ) (ha : 0 < a) (hm : 0 < m) (hc : 0 < c) :
    0 < dt_used a m c :=
  lt_min (lt_min ha hc) hm

/-- Helper: no checkpoint fires while the elapsed time stays strictly below
the next boundary. -/
theorem checkpointFires_eq_nil (interval : ℚ) (hi : 0 < interval) (n : ℕ) (t2 : ℚ)
    (hlow : (n : ℚ) * interval ≤ t2) (hhigh : t2 < ((n : ℚ) + 1) * interval) :
    checkpointFires interval n t2 = [] := by
  unfold checkpointFires
  have hfl : ⌊t2 / interval⌋ = (n : ℤ) := by
    rw [Int.floor_eq_iff]
    constructor
    · rw [le_div_iff₀ hi]
      push_cast
      linarith
    · rw [div_lt_iff₀ hi]
      push_cast
      linarith
  rw [hfl]
  simp

/-- Helper: exactly one checkpoint fires when the elapsed time lands exactly
on the next boundary. -/
theorem checkpointFires_eq_single (interval : ℚ) (hi : 0 < interval) (n : ℕ) :
    checkpointFires interval n (((n : ℚ) + 1) * interval) =
      [(n + 1, ((n : ℚ) + 1) * interval)] := by
  unfold checkpointFires
  have hfl : ⌊((n : ℚ) + 1) * interval / interval⌋ = (n : ℤ) + 1 := by
    rw [mul_div_cancel_right₀ _ (ne_of_gt hi)]
    have hcast : ((n : ℚ) + 1) = (((n : ℤ) + 1 : ℤ) : ℚ) := by push_cast; ring
    rw [hcast, Int.floor_intCast]
  rw [hfl]
  have hone : ((n : ℤ) + 1 - (n : ℤ)).toNat = 1 := by omega
  rw [hone]
  show List.map (fun j => (n + j + 1, ((n : ℚ) + 1) * interval)) (List.range 1) =
    [(n + 1, ((n : ℚ) + 1) * interval)]
  rw [show List.range 1 = [0] from rfl]
  simp

/-- Helper: CapInv is preserved by one scheduler advance whose duration is
positive and bounded by both the requested total and the next boundary. -/
theorem schedulerAdvance_cap_inv (interval total d : ℚ) (hi : 0 < interval)
    (s : SyncState) (hinv : CapInv interval total s) (hd : 0 < d)
    (hdtot : s.elapsed + d ≤ total)
    (hdnd : s.elapsed + d ≤ ((s.seq : ℚ) + 1) * interval) :
    CapInv interval total (schedulerAdvance interval d s) := by
  obtain ⟨h1, h2, h3, h4⟩ := hinv
  rcases lt_or_eq_of_le hdnd with hc | hc
  · have hfires : checkpointFires interval s.seq (s.elapsed + d) = [] :=
      checkpointFires_eq_nil interval hi s.seq (s.elapsed + d) (by linarith) hc
    simp only [schedulerAdvance, hfires, List.length_nil, Nat.add_zero, List.append_nil]
    exact ⟨by simpa using by linarith, by simpa using hc, by simpa using hdtot,
      by simpa using h4⟩
  · have hfires : checkpointFires interval s.seq (s.elapsed + d) =
        [(s.seq + 1, ((s.seq : ℚ) + 1) * interval)] := by
      rw [hc]
      exact checkpointFires_eq_single interval hi s.seq
    simp only [schedulerAdvance, hfires, List.length_singleton]
    refine ⟨?_, ?_, ?_, ?_⟩
    · simp only [hc]
      push_cast
      linarith
    · simp only [hc]
      push_cast
      linarith
    · simpa using hdtot
    · simp only [checkpointLog, List.range_succ, List.map_append, List.map_singleton]
      rw [h4]
      rfl

/-- Helper: CapInv is preserved by one coupled step whose mechanics report is
positive, taken before the requested total has been reached. -/
theorem stepOnce_cap_inv (interval total m : ℚ) (hi : 0 < interval) (s : SyncState)
    (hinv : CapInv interval total s) (hm : 0 < m) (hlt : s.elapsed < total) :
    CapInv interval total (stepOnce interval total m s) := by
  have h2 := hinv.2.1
  have hA : 0 < total - s.elapsed := by linarith
  have hB : 0 < ((s.seq : ℚ) + 1) * interval - s.elapsed := by linarith
  have hp := dt_used_pos (total - s.elapsed) m
    (((s.seq : ℚ) + 1) * interval - s.elapsed) hA hm hB
  have hu1 := dt_used_le_caller (total - s.elapsed) m
    (((s.seq : ℚ) + 1) * interval - s.elapsed)
  have hu2 := dt_used_le_sync (total - s.elapsed) m
    (((s.seq : ℚ) + 1) * interval - s.elapsed)
  exact schedulerAdvance_cap_inv interval total _ hi s hinv hp (by linarith) (by linarith)

/-- Helper: CapInv is preserved by a successful run. -/
theorem run_for_cap_inv (interval total : ℚ) (hi : 0 < interval) :
    ∀ (ms : List ℚ) (s0 s : SyncState), CapInv interval total s0 →
      run_for interval total ms s0 = .ok s → CapInv interval total s
  | [], s0, s, hinv, h => by
    obtain rfl : s0 = s := by simpa [run_for] using h
    exact hinv
  | a :: tl, s0, s, hinv, h => by
    simp only [run_for] at h
    by_cases h1 : total ≤ s0.elapsed
    · rw [if_pos h1] at h
      obtain rfl : s0 = s := by simpa using h
      exact hinv
    · rw [if_neg h1] at h
      by_cases h2 : a ≤ 0
      · rw [if_pos h2] at h
        exact absurd h (by simp)
      · rw [if_neg h2] at h
        exact run_for_cap_inv interval total hi tl _ s
          (stepOnce_cap_inv interval total a hi s0 hinv (not_le.mp h2) (not_le.mp h1)) h

/-- Claim C4: with checkpoint interval 10000, any run of the coupled loop that
completes a total duration of 100000 fires the checkpoint callback exactly 10
times, with sequence numbers 1 through 10 in order and elapsed times exactly
the multiples of 10000. -/
theorem C4_checkpoint_scenario (ms : List ℚ) (s : SyncState)
    (h : run_for 10000 100000 ms initState = .ok s)
    (hdone : s.elapsed = 100000) :
    s.seq = 10 ∧
    s.log = [(1, 10000), (2, 20000), (3, 30000), (4, 40000), (5, 50000),
      (6, 60000), (7, 70000), (8, 80000), (9, 90000), (10, 100000)] := by
  have hinit : CapInv 10000 100000 initState := by
    refine ⟨?_, ?_, ?_, ?_⟩ <;> norm_num [initState, checkpointLog]
  obtain ⟨h1, h2, -, h4⟩ := run_for_cap_inv 10000 100000 (by norm_num) ms initState s hinit h
  rw [hdone] at h1 h2
  have hle : (s.seq : ℚ) ≤ 10 := by linarith
  have hgt : (9 : ℚ) < (s.seq : ℚ) := by linarith
  have hseq : s.seq = 10 := by
    have hle2 : s.seq ≤ 10 := by exact_mod_cast hle
    have hgt2 : 9 < s.seq := by exact_mod_cast hgt
    omega
  refine ⟨hseq, ?_⟩
  rw [h4, hseq]
  with_unfolding_all rfl

theorem C4_checkpoint_scenario_witness :
    (⟨100000, 10, [(1, 10000), (2, 20000), (3, 30000), (4, 40000), (5, 50000),
      (6, 60000), (7, 70000), (8, 80000), (9, 90000), (10, 100000)]⟩ : SyncState).seq = 10 ∧
    (⟨100000, 10, [(1, 10000), (2, 20000), (3, 30000), (4, 40000), (5, 50000),
      (6, 60000), (7, 70000), (8, 80000), (9, 90000), (10, 100000)]⟩ : SyncState).log =
      [(1, 10000), (2, 20000), (3, 30000), (4, 40000), (5, 50000),
       (6, 60000), (7, 70000), (8, 80000), (9, 90000), (10, 100000)] :=
  C4_checkpoint_scenario (List.replicate 10 100000)
    ⟨100000, 10, [(1, 10000), (2, 20000), (3, 30000), (4, 40000), (5, 50000),
      (6, 60000), (7, 70000), (8, 80000), (9, 90000), (10, 100000)]⟩
    (by with_unfolding_all rfl) rfl

/-- Invariant of the stand-alone CheckpointScheduler: the fired sequence
number tracks the number of interval boundaries at or below the elapsed time,
the logged sequence numbers are exactly 1,2,... in order, logged elapsed
times never decrease, and no logged time exceeds the current elapsed time. -/
def SchedInv (interval : ℚ) (s : SyncState) : Prop :=
  0 ≤ s.elapsed ∧ ((s.seq : ℤ) = ⌊s.elapsed / interval⌋) ∧
  s.log.map Prod.fst = List.range' 1 s.seq ∧
  (s.log.map Prod.snd).Pairwise (· ≤ ·) ∧
  ∀ e ∈ s.log, e.2 ≤ s.elapsed

/-- Helper: SchedInv is preserved by one scheduler advance of non-negative
duration, even one that crosses several interval boundaries at once. -/
theorem schedulerAdvance_sched_inv (interval d : ℚ) (hi : 0 < interval) (hd : 0 ≤ d)
    (s : SyncState) (h : SchedInv interval s) :
    SchedInv interval (schedulerAdvance interval d s) := by
  obtain ⟨h0, h1, h2, h3, h4⟩ := h
  have hmono : (s.seq : ℤ) ≤ ⌊(s.elapsed + d) / interval⌋ := by
    rw [h1]
    exact Int.floor_mono (div_le_div_of_nonneg_right (by linarith) (le_of_lt hi))
  set k : ℕ := (⌊(s.elapsed + d) / interval⌋ - (s.seq : ℤ)).toNat with hk
  have hkz : (k : ℤ) = ⌊(s.elapsed + d) / interval⌋ - (s.seq : ℤ) := by
    rw [hk]
    exact Int.toNat_of_nonneg (by omega)
  have hfires : checkpointFires interval s.seq (s.elapsed + d) =
      (List.range k).map (fun j => (s.seq + j + 1, s.elapsed + d)) := rfl
  simp only [schedulerAdvance, hfires, List.length_map, List.length_range]
  refine ⟨by dsimp only; linarith, ?_, ?_, ?_, ?_⟩
  · show ((s.seq + k : ℕ) : ℤ) = ⌊(s.elapsed + d) / interval⌋
    push_cast
    omega
  · dsimp only
    have hmapfst :
        ((List.range k).map (fun j => (s.seq + j + 1, s.elapsed + d))).map Prod.fst =
          List.range' (1 + 1 * s.seq) k := by
      rw [List.map_map, List.range'_eq_map_range]
      refine List.map_congr_left (fun a _ => ?_)
      simp only [Function.comp_apply]
      omega
    rw [List.map_append, h2, hmapfst, List.range'_append]
    congr 1
    omega
  · rw [List.map_append, List.map_map]
    have hsndconst : (List.range k).map
        (Prod.snd ∘ fun j : ℕ => (s.seq + j + 1, s.elapsed + d)) =
          List.replicate k (s.elapsed + d) := by
      rw [show (Prod.snd ∘ fun j : ℕ => (s.seq + j + 1, s.elapsed + d)) =
        Function.const ℕ (s.elapsed + d) from funext fun j => rfl]
      rw [List.map_const, List.length_range]
    rw [hsndconst, List.pairwise_append]
    refine ⟨h3, List.pairwise_replicate.mpr (Or.inr le_rfl), ?_⟩
    intro a ha b hb
    rw [List.eq_of_mem_replicate hb]
    obtain ⟨e, he, rfl⟩ := List.mem_map.mp ha
    exact le_trans (h4 e he) (by linarith)
  · dsimp only
    intro e he
    rcases List.mem_append.mp he with hL | hR
    · exact le_trans (h4 e hL) (by linarith)
    · obtain ⟨j, -, rfl⟩ := List.mem_map.mp hR
      exact le_rfl

/-- Helper: SchedInv is preserved along any sequence of non-negative
coupling-step durations. -/
theorem scheduler_run_sched_inv (interval : ℚ) (hi : 0 < interval) :
    ∀ (ds : List ℚ), (∀ d ∈ ds, 0 ≤ d) → ∀ (s : SyncState), SchedInv interval s →
      SchedInv interval (scheduler_run interval ds s)
  | [], _, s, h => by simpa [scheduler_run] using h
  | d :: ds, hd, s, h => by
    simp only [scheduler_run]
    exact scheduler_run_sched_inv interval hi ds
      (fun x hx => hd x (List.mem_cons_of_mem _ hx)) _
      (schedulerAdvance_sched_inv interval d hi (hd d (List.mem_cons_self _ _)) s h)

/-- Claim C5: over any sequence of coupling steps of non-negative duration,
the CheckpointScheduler fires with strictly increasing sequence numbers and
non-decreasing elapsed times, and fires exactly once per interval boundary
crossed: the logged sequence numbers are exactly the consecutive run 1, 2,
..., up to the number of boundaries at or below the final elapsed time, even
when one step spans several boundaries. -/
theorem C5_checkpoint_monotonic (interval : ℚ) (hi : 0 < interval) (ds : List ℚ)
    (hd : ∀ d ∈ ds, 0 ≤ d) :
    ((scheduler_run interval ds initState).log.map Prod.fst).Pairwise (· < ·) ∧
    ((scheduler_run interval ds initState).log.map Prod.snd).Pairwise (· ≤ ·) ∧
    (scheduler_run interval ds initState).log.map Prod.fst =
      List.range' 1 (scheduler_run interval ds initState).seq ∧
    ((scheduler_run interval ds initState).seq : ℤ) =
      ⌊(scheduler_run interval ds initState).elapsed / interval⌋ := by
  have hinit : SchedInv interval initState := by
    refine ⟨le_rfl, ?_, ?_, ?_, ?_⟩ <;> simp [initState]
  obtain ⟨-, hfl, hfst, hsnd, -⟩ :=
    scheduler_run_sched_inv interval hi ds hd initState hinit
  refine ⟨?_, hsnd, hfst, hfl⟩
  rw [hfst]
  exact List.pairwise_lt_range' _ _

theorem C5_checkpoint_monotonic_witness :
    ((scheduler_run 10 [25, 0, 10] initState).log.map Prod.fst).Pairwise (· < ·) ∧
    ((scheduler_run 10 [25, 0, 10] initState).log.map Prod.snd).Pairwise (· ≤ ·) ∧
    (scheduler_run 10 [25, 0, 10] initState).log.map Prod.fst =
      List.range' 1 (scheduler_run 10 [25, 0, 10] initState).seq ∧
    ((scheduler_run 10 [25, 0, 10] initState).seq : ℤ) =
      ⌊(scheduler_run 10 [25, 0, 10] initState).elapsed / 10⌋ :=
  C5_checkpoint_monotonic 10 (by norm_num) [25, 0, 10] (by decide)
